import Mathlib

/-!
Verification of the core behavior of `streamlit_app.py` (Canva-to-HTML
converter): prompt construction (`generate_html_css`), response extraction
(`_extract_html`), the two service-call wrappers, and the generate-button
handler.  Python strings are modelled as `List Char`; the Python `find`,
`rfind`, slicing and `strip` are modelled explicitly below.
-/

namespace CanvaToHTML

/-- Python whitespace characters, as used by `str.strip()`. -/
def isPySpace (c : Char) : Bool :=
  c = ' ' || c = '\t' || c = '\n' || c = '\r' || c.val = 11 || c.val = 12

/-- Model of Python `str.strip()`: remove leading and trailing whitespace. -/
def pyStrip (s : List Char) : List Char :=
  ((s.dropWhile isPySpace).reverse.dropWhile isPySpace).reverse

/-- `pat` occurs in `s` starting at index `i`. -/
def occursAtB (s pat : List Char) (i : Nat) : Bool :=
  pat.isPrefixOf (s.drop i)

/-- Scan indices `i, i+1, ...` (at most `fuel` of them) for the first
occurrence of `pat`; `-1` when none is found. -/
def findAux (s pat : List Char) : Nat → Nat → Int
  | _, 0 => -1
  | i, Nat.succ fuel => if occursAtB s pat i then (i : Int) else findAux s pat (i + 1) fuel

/-- Model of Python `s.find(pat, start)`: smallest index `≥ start` where
`pat` occurs, else `-1`. -/
def pyFind (s pat : List Char) (start : Nat) : Int :=
  findAux s pat start (s.length + 1 - start)

/-- Scan indices `m, m-1, ..., 0` for the first (hence largest) occurrence
of `pat`; `-1` when none is found. -/
def rfindAux (s pat : List Char) : Nat → Int
  | 0 => if occursAtB s pat 0 then (0 : Int) else -1
  | Nat.succ m => if occursAtB s pat (m + 1) then ((m + 1 : Nat) : Int) else rfindAux s pat m

/-- Model of Python `s.rfind(pat)`: largest index where `pat` occurs,
else `-1`. -/
def pyRFind (s pat : List Char) : Int :=
  rfindAux s pat s.length

/-- Model of Python `pat in s`: `pat` occurs somewhere in `s`. -/
def pyContains (s pat : List Char) : Bool :=
  (List.range (s.length + 1)).any (fun i => occursAtB s pat i)

/-- Model of the Python slice `s[start:stop]` with a nonnegative `start`
and a possibly negative `stop` (negative values count from the end). -/
def pySlice (s : List Char) (start : Nat) (stop : Int) : List Char :=
  let e : Nat := if stop < 0 then ((s.length : Int) + stop).toNat else min stop.toNat s.length
  (s.take e).drop start

/-- The characters of the fence marker tagged as HTML. -/
def htmlFence : List Char := "```html".data

/-- The characters of the bare fence marker. -/
def codeFence : List Char := "```".data

/-- The characters of the doctype declaration marker. -/
def docType : List Char := "<!DOCTYPE".data

/-- The characters of the closing root tag. -/
def closeHtml : List Char := "</html>".data

/-- Embedding of `CanvaToHTMLAgent._extract_html` (streamlit_app.py,
lines 152-167), branch for branch and slice for slice. -/
def extract_html (s : List Char) : List Char :=
  if pyContains s htmlFence then
    let start := (pyFind s htmlFence 0).toNat + 7
    pyStrip (pySlice s start (pyFind s codeFence start))
  else if pyContains s codeFence then
    let start := (pyFind s codeFence 0).toNat + 3
    pyStrip (pySlice s start (pyFind s codeFence start))
  else if pyContains s docType then
    let start := (pyFind s docType 0).toNat
    let stop := pyRFind s closeHtml + 7
    if (start : Int) < stop then pyStrip (pySlice s start stop)
    else pyStrip s
  else pyStrip s

/-- The customization record built by the generate-button handler
(streamlit_app.py, lines 271-284) and consumed by `generate_html_css`.
A field is "present" when it is truthy: a nonempty string, or `true`. -/
structure Customizations where
  color_scheme : String
  font_size : String
  spacing : String
  button_style : String
  animations : Bool
  custom_instructions : String
deriving DecidableEq

/-- Embedding of the `custom_css` list built by
`CanvaToHTMLAgent.generate_html_css` (lines 105-117): one appended
instruction per truthy customization field, in source order. -/
def custom_css (c : Customizations) : List String :=
  (if c.color_scheme ≠ "" then ["Use a " ++ c.color_scheme ++ " color scheme"] else [])
  ++ (if c.font_size ≠ "" then ["Use " ++ c.font_size ++ " font sizes"] else [])
  ++ (if c.spacing ≠ "" then ["Use " ++ c.spacing ++ " spacing"] else [])
  ++ (if c.button_style ≠ "" then ["Style buttons as " ++ c.button_style] else [])
  ++ (if c.animations then ["Add smooth CSS animations and transitions"] else [])
  ++ (if c.custom_instructions ≠ "" then [c.custom_instructions] else [])

/-- Embedding of `customization_text` (lines 119-121):
`"\n- ".join(custom_css)` when the list is nonempty, else the literal
fallback. -/
def customization_text (c : Customizations) : String :=
  if custom_css c ≠ [] then String.intercalate "\n- " (custom_css c)
  else "Follow original design"

/-- The customization-section lines as the specification words them: one
instruction line per present (non-empty/true) field, in the fixed order
color scheme, font size, spacing, button style, animations, free text,
omitting unset fields.  Stated independently of `custom_css` so the two
can be compared. -/
def spec_customization_lines (c : Customizations) : List String :=
  List.filterMap id
    [ if c.color_scheme ≠ "" then some ("Use a " ++ c.color_scheme ++ " color scheme") else none,
      if c.font_size ≠ "" then some ("Use " ++ c.font_size ++ " font sizes") else none,
      if c.spacing ≠ "" then some ("Use " ++ c.spacing ++ " spacing") else none,
      if c.button_style ≠ "" then some ("Style buttons as " ++ c.button_style) else none,
      if c.animations then some "Add smooth CSS animations and transitions" else none,
      if c.custom_instructions ≠ "" then some c.custom_instructions else none ]

/-- Result dictionary returned by `analyze_design` / `generate_html_css`:
a `success` flag plus the keys that may or may not be present
(`none` models an absent key). -/
structure PyDict where
  success : Bool
  raw_analysis : Option String
  html : Option String
  error : Option String
deriving DecidableEq

/-- Outcome of one call to the external generation service: the response
text on success, or the message of the raised exception. -/
inductive ServiceOutcome where
  | success (text : String)
  | failure (msg : String)
deriving DecidableEq

/-- Embedding of the analysis prompt built by
`CanvaToHTMLAgent.analyze_design` (lines 83-93). -/
def analysis_prompt (custom_instructions : String) : String :=
  "Analyze this web design template image in extreme detail:\n\n1. LAYOUT STRUCTURE: sections, grid, hierarchy\n2. COLOR SCHEME: backgrounds, text, buttons, accents (hex codes)\n3. TYPOGRAPHY: heading styles, body text, font weights\n4. UI ELEMENTS: buttons, forms, images, icons, navigation\n5. SPACING: padding, margins, alignment\n6. SPECIAL EFFECTS: shadows, borders, gradients"
  ++ (if custom_instructions ≠ "" then "\n\nADDITIONAL FOCUS:\n" ++ custom_instructions else "")

/-- Embedding of `CanvaToHTMLAgent.analyze_design` (lines 80-99); the
external call is modelled by `svc`, a map from prompt to outcome. -/
def analyze_design (custom_instructions : String) (svc : String → ServiceOutcome) : PyDict :=
  match svc (analysis_prompt custom_instructions) with
  | .success t => { success := true, raw_analysis := some t, html := none, error := none }
  | .failure m => { success := false, raw_analysis := none, html := none, error := some m }

/-- Embedding of the synthesis prompt built by
`CanvaToHTMLAgent.generate_html_css` (lines 123-143); `analysis` is the
dictionary returned by `analyze_design`, read with a defaulted dictionary lookup of the raw analysis. -/
def code_prompt (analysis : PyDict) (c : Customizations) : String :=
  "Generate complete HTML and CSS code based on this analysis:\n\nANALYSIS:\n"
  ++ analysis.raw_analysis.getD ""
  ++ "\n\nCUSTOMIZATIONS:\n- "
  ++ customization_text c
  ++ "\n\nREQUIREMENTS:\n1. Complete HTML5 document with DOCTYPE\n2. Semantic HTML5 tags (header, nav, main, section, footer)\n3. Modern CSS (Flexbox/Grid for layout)\n4. Fully responsive (mobile-friendly with media queries)\n5. Include ALL elements: text, buttons, forms, images (use https://placehold.co/800x400 for images)\n6. Match colors exactly (use hex codes)\n7. Add hover effects and transitions\n8. Include viewport meta tag\n9. Embed all CSS in <style> tag\n10. Add helpful comments\n\nOUTPUT: Provide ONLY complete HTML code. Start with <!DOCTYPE html> and end with </html>. No explanations."

/-- Embedding of `CanvaToHTMLAgent.generate_html_css` (lines 101-150):
build the prompt, call the service, extract the HTML on success, or turn
the raised exception into a failure dictionary. -/
def generate_html_css (analysis : PyDict) (c : Customizations) (svc : String → ServiceOutcome) : PyDict :=
  match svc (code_prompt analysis c) with
  | .success t => { success := true, raw_analysis := none,
                    html := some (String.mk (extract_html t.data)), error := none }
  | .failure m => { success := false, raw_analysis := none, html := none, error := some m }

/-- Observable effect of one run of the generate-button handler
(streamlit_app.py, lines 286-310): what was stored in the session state,
which `st.error` / `st.success` messages were shown, and whether the
synthesis stage was invoked at all. -/
structure HandlerResult where
  analysis_stored : Option PyDict
  generated_html : Option String
  errors : List String
  successes : List String
  synthesis_invoked : Bool
deriving DecidableEq

/-- Rendering of an optional string inside a Python f-string:
an absent value prints as `None`. -/
def fstr (o : Option String) : String := o.getD "None"

/-- Embedding of the generate-button handler (lines 286-310): run
analysis; on failure show the analysis error and stop; otherwise store the
analysis and run synthesis, storing its HTML on success or showing its
error on failure. -/
def run_generate (c : Customizations) (svc : String → ServiceOutcome) : HandlerResult :=
  let analysis := analyze_design c.custom_instructions svc
  if analysis.success = false then
    { analysis_stored := none, generated_html := none,
      errors := ["❌ Analysis Error: " ++ fstr analysis.error],
      successes := [], synthesis_invoked := false }
  else
    let result := generate_html_css analysis c svc
    if result.success then
      { analysis_stored := some analysis, generated_html := result.html,
        errors := [], successes := ["✅ HTML/CSS generated successfully!"],
        synthesis_invoked := true }
    else
      { analysis_stored := some analysis, generated_html := none,
        errors := ["❌ Generation Error: " ++ fstr result.error],
        successes := [], synthesis_invoked := true }

/-! ### Characterizations of the Python string primitives -/

theorem occursAtB_iff {s pat : List Char} {i : Nat} :
    occursAtB s pat i = true ↔ pat <+: s.drop i := by
  simp [occursAtB]

theorem occursAtB_add_le {s pat : List Char} {i : Nat}
    (h : occursAtB s pat i = true) (hp : pat ≠ []) : i + pat.length ≤ s.length := by
  have h1 : pat.length ≤ (s.drop i).length := (occursAtB_iff.mp h).length_le
  rw [List.length_drop] at h1
  have h2 : 0 < pat.length := List.length_pos.mpr hp
  omega

theorem pyContains_true_of {s pat : List Char} {i : Nat}
    (hi : i ≤ s.length) (h : occursAtB s pat i = true) : pyContains s pat = true := by
  simp only [pyContains, List.any_eq_true]
  exact ⟨i, List.mem_range.mpr (Nat.lt_succ_of_le hi), h⟩

theorem no_occ_of_contains_false {s pat : List Char}
    (h : pyContains s pat = false) (hp : pat ≠ []) (k : Nat) : occursAtB s pat k = false := by
  cases hoc : occursAtB s pat k with
  | false => rfl
  | true =>
    have hpos : 0 < pat.length := List.length_pos.mpr hp
    have hk : k ≤ s.length := by have := occursAtB_add_le hoc hp; omega
    have := pyContains_true_of hk hoc
    rw [h] at this
    simp at this

theorem findAux_eq {s pat : List Char} {j : Nat} :
    ∀ (fuel i : Nat), i ≤ j → j < i + fuel → occursAtB s pat j = true →
      (∀ k, i ≤ k → k < j → occursAtB s pat k = false) →
      findAux s pat i fuel = (j : Int) := by
  intro fuel
  induction fuel with
  | zero => intro i h1 h2 _ _; exact absurd h2 (by omega)
  | succ fuel ih =>
    intro i h1 h2 hj hmin
    by_cases hoc : occursAtB s pat i = true
    · have hij : i = j := by
        by_contra hne
        have := hmin i (Nat.le_refl i) (by omega)
        rw [this] at hoc
        simp at hoc
      subst hij
      simp [findAux, hoc]
    · have hoc' : occursAtB s pat i = false := by
        cases h : occursAtB s pat i
        · rfl
        · exact absurd h hoc
      have hij : i ≠ j := by
        intro he
        rw [he, hj] at hoc'
        simp at hoc'
      simp only [findAux, hoc']
      simp only [Bool.false_eq_true, if_false]
      exact ih (i + 1) (by omega) (by omega) hj (fun k hk1 hk2 => hmin k (by omega) hk2)

theorem findAux_neg {s pat : List Char}
    (h : ∀ k, occursAtB s pat k = false) :
    ∀ (fuel i : Nat), findAux s pat i fuel = -1 := by
  intro fuel
  induction fuel with
  | zero => intro i; rfl
  | succ fuel ih =>
    intro i
    simp only [findAux, h i]
    simp only [Bool.false_eq_true, if_false]
    exact ih (i + 1)

theorem pyFind_eq {s pat : List Char} {st j : Nat}
    (hj : j ≤ s.length) (hst : st ≤ j) (hocc : occursAtB s pat j = true)
    (hmin : ∀ k, st ≤ k → k < j → occursAtB s pat k = false) :
    pyFind s pat st = (j : Int) :=
  findAux_eq (s.length + 1 - st) st hst (by omega) hocc hmin

theorem pyFind_neg {s pat : List Char} {st : Nat}
    (h : ∀ k, occursAtB s pat k = false) : pyFind s pat st = -1 :=
  findAux_neg h (s.length + 1 - st) st

theorem rfindAux_eq {s pat : List Char} {j : Nat}
    (hocc : occursAtB s pat j = true) (habove : ∀ k, j < k → occursAtB s pat k = false) :
    ∀ m, j ≤ m → rfindAux s pat m = (j : Int) := by
  intro m
  induction m with
  | zero =>
    intro h0
    have hj0 : j = 0 := Nat.le_zero.mp h0
    subst hj0
    simp [rfindAux, hocc]
  | succ m ih =>
    intro hjm
    by_cases hj : j = m + 1
    · subst hj
      simp [rfindAux, hocc]
    · have hfalse : occursAtB s pat (m + 1) = false := habove (m + 1) (by omega)
      simp only [rfindAux, hfalse]
      simp only [Bool.false_eq_true, if_false]
      exact ih (by omega)

theorem rfindAux_neg {s pat : List Char}
    (h : ∀ k, occursAtB s pat k = false) : ∀ m, rfindAux s pat m = -1 := by
  intro m
  induction m with
  | zero => simp [rfindAux, h 0]
  | succ m ih =>
    simp only [rfindAux, h (m + 1)]
    simp only [Bool.false_eq_true, if_false]
    exact ih

theorem pyRFind_eq {s pat : List Char} {j : Nat}
    (hj : j ≤ s.length) (hocc : occursAtB s pat j = true)
    (habove : ∀ k, j < k → occursAtB s pat k = false) :
    pyRFind s pat = (j : Int) :=
  rfindAux_eq hocc habove s.length hj

theorem pyRFind_neg {s pat : List Char}
    (h : ∀ k, occursAtB s pat k = false) : pyRFind s pat = -1 :=
  rfindAux_neg h s.length

theorem pySlice_mid (x y z : List Char) :
    pySlice (x ++ y ++ z) x.length ((x.length + y.length : Nat) : Int) = y := by
  simp only [pySlice]
  rw [if_neg (by omega)]
  rw [Int.toNat_ofNat]
  have hlen : (x ++ y ++ z).length = x.length + y.length + z.length := by
    simp only [List.length_append]
  rw [hlen, min_eq_left (by omega)]
  rw [List.take_left' (by simp)]
  exact List.drop_left x y

theorem pySlice_eq_drop_take {s : List Char} {start stop : Nat} (h : stop ≤ s.length) :
    pySlice s start (stop : Int) = (s.drop start).take (stop - start) := by
  simp only [pySlice]
  rw [if_neg (by omega)]
  rw [Int.toNat_ofNat, min_eq_left h]
  exact List.drop_take stop start s

theorem pySlice_neg_one {s : List Char} {start : Nat} :
    pySlice s start (-1) = (s.drop start).dropLast := by
  simp only [pySlice]
  rw [if_pos (by omega)]
  have he : ((s.length : Int) + (-1)).toNat = s.length - 1 := by omega
  rw [he]
  rw [List.drop_take, List.dropLast_eq_take]
  congr 1
  rw [List.length_drop]
  omega

theorem head?_dropWhile_false {α : Type} (p : α → Bool) :
    ∀ (l : List α) (c : α), (l.dropWhile p).head? = some c → p c = false := by
  intro l
  induction l with
  | nil => intro c h; simp at h
  | cons a l ih =>
    intro c h
    rw [List.dropWhile_cons] at h
    by_cases hpa : p a = true
    · rw [if_pos hpa] at h
      exact ih c h
    · rw [if_neg hpa] at h
      simp at h
      subst h
      simpa using hpa

theorem pyStrip_eq_self {s : List Char}
    (hh : ∀ c, s.head? = some c → isPySpace c = false)
    (hl : ∀ c, s.getLast? = some c → isPySpace c = false) :
    pyStrip s = s := by
  unfold pyStrip
  have h1 : s.dropWhile isPySpace = s := by
    cases s with
    | nil => rfl
    | cons a l =>
      rw [List.dropWhile_cons, if_neg (by simp [hh a rfl])]
  rw [h1]
  have h2 : s.reverse.dropWhile isPySpace = s.reverse := by
    cases hrev : s.reverse with
    | nil => rfl
    | cons a l =>
      have ha : s.getLast? = some a := by
        rw [← List.head?_reverse, hrev]
        rfl
      rw [List.dropWhile_cons, if_neg (by simp [hl a ha])]
  rw [h2, List.reverse_reverse]

theorem pyStrip_prefix_dropWhile (s : List Char) :
    pyStrip s <+: s.dropWhile isPySpace := by
  have hu : ((s.dropWhile isPySpace).reverse.dropWhile isPySpace) <:+
      (s.dropWhile isPySpace).reverse := List.dropWhile_suffix _
  have := hu.reverse
  simpa [pyStrip] using this

theorem pyStrip_within (s : List Char) : pyStrip s <:+: s := by
  have h1 : s.dropWhile isPySpace <:+ s := List.dropWhile_suffix _
  exact (pyStrip_prefix_dropWhile s).isInfix.trans h1.isInfix

theorem pyStrip_idem (s : List Char) : pyStrip (pyStrip s) = pyStrip s := by
  by_cases ht : pyStrip s = []
  · rw [ht]; rfl
  · apply pyStrip_eq_self
    · intro c hc
      have hpre : pyStrip s <+: s.dropWhile isPySpace := pyStrip_prefix_dropWhile s
      obtain ⟨w, hw⟩ := hpre
      have hhead : (s.dropWhile isPySpace).head? = some c := by
        rw [← hw]
        cases hps : pyStrip s with
        | nil => exact absurd hps ht
        | cons b l =>
          rw [hps] at hc
          simp at hc
          simp [hc]
      exact head?_dropWhile_false isPySpace s c hhead
    · intro c hc
      have hlast : ((s.dropWhile isPySpace).reverse.dropWhile isPySpace).head? = some c := by
        have : (pyStrip s).getLast? =
            ((s.dropWhile isPySpace).reverse.dropWhile isPySpace).head? := by
          simp [pyStrip]
        rw [← this]
        exact hc
      exact head?_dropWhile_false isPySpace _ c hlast

theorem pyContains_mono {s t pat : List Char} (hst : t <:+: s) (hp : pat ≠ [])
    (h : pyContains t pat = true) : pyContains s pat = true := by
  obtain ⟨u, v, huv⟩ := hst
  simp only [pyContains, List.any_eq_true] at h ⊢
  obtain ⟨i, hi, hocc⟩ := h
  rw [List.mem_range] at hi
  have hile : i ≤ t.length := by
    have := occursAtB_add_le hocc hp
    have : 0 < pat.length := List.length_pos.mpr hp
    omega
  have hocc' : occursAtB s pat (u.length + i) = true := by
    rw [occursAtB_iff] at hocc ⊢
    rw [← huv, List.append_assoc, List.drop_append]
    rw [List.drop_append_eq_append_drop]
    exact hocc.trans (List.prefix_append _ _)
  have hbound : u.length + i ≤ s.length := by
    have := occursAtB_add_le hocc' hp
    have : 0 < pat.length := List.length_pos.mpr hp
    omega
  exact ⟨u.length + i, List.mem_range.mpr (Nat.lt_succ_of_le hbound), hocc'⟩

theorem contains_codeFence_of_htmlFence {s : List Char}
    (h : pyContains s htmlFence = true) : pyContains s codeFence = true := by
  simp only [pyContains, List.any_eq_true] at h ⊢
  obtain ⟨i, hi, hocc⟩ := h
  refine ⟨i, hi, ?_⟩
  rw [occursAtB_iff] at hocc ⊢
  exact (show codeFence <+: htmlFence by decide).trans hocc

theorem not_contains_htmlFence {s : List Char}
    (h : pyContains s codeFence = false) : pyContains s htmlFence = false := by
  cases hc : pyContains s htmlFence with
  | false => rfl
  | true => rw [contains_codeFence_of_htmlFence hc] at h; simp at h

theorem extract_eq_branch1 {s : List Char} {i : Nat}
    (hi : i ≤ s.length) (hocc : occursAtB s htmlFence i = true)
    (hfind : pyFind s htmlFence 0 = (i : Int)) :
    extract_html s = pyStrip (pySlice s (i + 7) (pyFind s codeFence (i + 7))) := by
  unfold extract_html
  rw [if_pos (pyContains_true_of hi hocc)]
  rw [hfind, Int.toNat_ofNat]

theorem extract_eq_branch2 {s : List Char} {i : Nat}
    (hno1 : pyContains s htmlFence = false)
    (hi : i ≤ s.length) (hocc : occursAtB s codeFence i = true)
    (hfind : pyFind s codeFence 0 = (i : Int)) :
    extract_html s = pyStrip (pySlice s (i + 3) (pyFind s codeFence (i + 3))) := by
  unfold extract_html
  rw [if_neg (by rw [hno1]; simp)]
  rw [if_pos (pyContains_true_of hi hocc)]
  rw [hfind, Int.toNat_ofNat]

theorem extract_eq_branch3 {s : List Char} {i : Nat}
    (hno2 : pyContains s codeFence = false)
    (hi : i ≤ s.length) (hocc : occursAtB s docType i = true)
    (hfind : pyFind s docType 0 = (i : Int)) :
    extract_html s =
      (if (i : Int) < pyRFind s closeHtml + 7
       then pyStrip (pySlice s i (pyRFind s closeHtml + 7))
       else pyStrip s) := by
  unfold extract_html
  rw [if_neg (by rw [not_contains_htmlFence hno2]; simp)]
  rw [if_neg (by rw [hno2]; simp)]
  rw [if_pos (pyContains_true_of hi hocc)]
  rw [hfind, Int.toNat_ofNat]

theorem extract_eq_fallback {s : List Char}
    (hno2 : pyContains s codeFence = false)
    (hno3 : pyContains s docType = false) :
    extract_html s = pyStrip s := by
  unfold extract_html
  rw [if_neg (by rw [not_contains_htmlFence hno2]; simp)]
  rw [if_neg (by rw [hno2]; simp)]
  rw [if_neg (by rw [hno3]; simp)]

theorem occursAt_concat {s x y w : List Char} {i : Nat}
    (hs : s = x ++ (y ++ w)) (hi : i = x.length) : occursAtB s y i = true := by
  subst hs
  subst hi
  rw [occursAtB_iff, List.drop_left]
  exact List.prefix_append y w

/-- C3: a response containing a fenced block explicitly tagged as HTML is
reduced to the trimmed content strictly between the html-tagged
opening marker and the next closing fence, regardless of what else (for
example a doctype in surrounding prose) the text contains. -/
theorem C3_tagged_fence_priority (s a b c2 : List Char)
    (hs : s = a ++ htmlFence ++ b ++ codeFence ++ c2)
    (hfirst : ∀ k, k < a.length → occursAtB s htmlFence k = false)
    (hnext : ∀ k, k < a.length + 7 + b.length → a.length + 7 ≤ k →
        occursAtB s codeFence k = false) :
    extract_html s = pyStrip b := by
  have h7 : htmlFence.length = 7 := rfl
  have h3 : codeFence.length = 3 := rfl
  have hslen : s.length = a.length + 7 + b.length + 3 + c2.length := by
    rw [hs]
    simp only [List.length_append, h7, h3]
  have hsx : s = a ++ (htmlFence ++ (b ++ (codeFence ++ c2))) := by
    rw [hs]
    simp [List.append_assoc]
  have hocc1 : occursAtB s htmlFence a.length = true := occursAt_concat hsx rfl
  have hle1 : a.length ≤ s.length := by omega
  have hfind1 : pyFind s htmlFence 0 = (a.length : Int) :=
    pyFind_eq hle1 (Nat.zero_le _) hocc1 (fun k _ hk => hfirst k hk)
  have hs2 : s = ((a ++ htmlFence) ++ b) ++ (codeFence ++ c2) := by
    rw [hs]
    simp [List.append_assoc]
  have hilen : a.length + 7 + b.length = ((a ++ htmlFence) ++ b).length := by
    simp [List.length_append, h7]
    omega
  have hocc2 : occursAtB s codeFence (a.length + 7 + b.length) = true :=
    occursAt_concat hs2 hilen
  have hfind2 : pyFind s codeFence (a.length + 7) = ((a.length + 7 + b.length : Nat) : Int) :=
    pyFind_eq (by omega) (by omega) hocc2 (fun k hk1 hk2 => hnext k hk2 hk1)
  rw [extract_eq_branch1 hle1 hocc1 hfind1, hfind2]
  congr 1
  have hmid := pySlice_mid (a ++ htmlFence) b (codeFence ++ c2)
  rw [show (a ++ htmlFence).length = a.length + 7 from by simp [List.length_append, h7]] at hmid
  rw [show (a ++ htmlFence) ++ b ++ (codeFence ++ c2) = s from by
    rw [hs]; simp [List.append_assoc]] at hmid
  exact hmid

/-- Witness for C3 at a concrete input whose prose also contains a
standalone doctype before the tagged fenced block. -/
theorem C3_witness :
    extract_html ("Intro <!DOCTYPE html> text ".data ++ htmlFence ++
        " <div>hi</div> ".data ++ codeFence ++ " trailing".data) =
      pyStrip " <div>hi</div> ".data ∧
    pyContains ("Intro <!DOCTYPE html> text ".data ++ htmlFence ++
        " <div>hi</div> ".data ++ codeFence ++ " trailing".data) docType = true :=
  ⟨C3_tagged_fence_priority _ "Intro <!DOCTYPE html> text ".data " <div>hi</div> ".data
      " trailing".data rfl (by decide) (by decide), by decide⟩

/-- C5: with no HTML-tagged fence present, a response containing a generic
fenced block is reduced to the trimmed content between the first opening
fence marker and the next closing fence. -/
theorem C5_generic_fence (s a b c2 : List Char)
    (hs : s = a ++ codeFence ++ b ++ codeFence ++ c2)
    (hno : pyContains s htmlFence = false)
    (hfirst : ∀ k, k < a.length → occursAtB s codeFence k = false)
    (hnext : ∀ k, k < a.length + 3 + b.length → a.length + 3 ≤ k →
        occursAtB s codeFence k = false) :
    extract_html s = pyStrip b := by
  have h3 : codeFence.length = 3 := rfl
  have hslen : s.length = a.length + 3 + b.length + 3 + c2.length := by
    rw [hs]
    simp only [List.length_append, h3]
  have hsx : s = a ++ (codeFence ++ (b ++ (codeFence ++ c2))) := by
    rw [hs]
    simp [List.append_assoc]
  have hocc1 : occursAtB s codeFence a.length = true := occursAt_concat hsx rfl
  have hle1 : a.length ≤ s.length := by omega
  have hfind1 : pyFind s codeFence 0 = (a.length : Int) :=
    pyFind_eq hle1 (Nat.zero_le _) hocc1 (fun k _ hk => hfirst k hk)
  have hs2 : s = ((a ++ codeFence) ++ b) ++ (codeFence ++ c2) := by
    rw [hs]
    simp [List.append_assoc]
  have hilen : a.length + 3 + b.length = ((a ++ codeFence) ++ b).length := by
    simp [List.length_append, h3]
    omega
  have hocc2 : occursAtB s codeFence (a.length + 3 + b.length) = true :=
    occursAt_concat hs2 hilen
  have hfind2 : pyFind s codeFence (a.length + 3) = ((a.length + 3 + b.length : Nat) : Int) :=
    pyFind_eq (by omega) (by omega) hocc2 (fun k hk1 hk2 => hnext k hk2 hk1)
  rw [extract_eq_branch2 hno hle1 hocc1 hfind1, hfind2]
  congr 1
  have hmid := pySlice_mid (a ++ codeFence) b (codeFence ++ c2)
  rw [show (a ++ codeFence).length = a.length + 3 from by simp [List.length_append, h3]] at hmid
  rw [show (a ++ codeFence) ++ b ++ (codeFence ++ c2) = s from by
    rw [hs]; simp [List.append_assoc]] at hmid
  exact hmid

/-- Witness for C5 at a concrete input with a generic (untagged) fenced
block surrounded by prose. -/
theorem C5_witness :
    extract_html ("Reply:\n".data ++ codeFence ++ "\n<p>ok</p>\n".data ++ codeFence ++
        " done".data) = pyStrip "\n<p>ok</p>\n".data :=
  C5_generic_fence _ "Reply:\n".data "\n<p>ok</p>\n".data " done".data rfl
    (by decide) (by decide) (by decide)

theorem findAux_inv {s pat : List Char} {j : Nat} :
    ∀ (fuel i : Nat), findAux s pat i fuel = (j : Int) →
      occursAtB s pat j = true ∧ i ≤ j ∧
        (∀ k, i ≤ k → k < j → occursAtB s pat k = false) := by
  intro fuel
  induction fuel with
  | zero =>
    intro i h
    simp only [findAux] at h
    exfalso
    omega
  | succ fuel ih =>
    intro i h
    simp only [findAux] at h
    by_cases hoc : occursAtB s pat i = true
    · rw [if_pos hoc] at h
      have hij : i = j := by exact_mod_cast h
      subst hij
      exact ⟨hoc, Nat.le_refl i, fun k hk1 hk2 => absurd hk2 (by omega)⟩
    · have hoc' : occursAtB s pat i = false := by
        cases hx : occursAtB s pat i
        · rfl
        · exact absurd hx hoc
      rw [hoc'] at h
      simp only [Bool.false_eq_true, if_false] at h
      obtain ⟨h1, h2, h3⟩ := ih (i + 1) h
      refine ⟨h1, by omega, fun k hk1 hk2 => ?_⟩
      by_cases hk : k = i
      · subst hk
        exact hoc'
      · exact h3 k (by omega) hk2

theorem pyFind_inv {s pat : List Char} {st j : Nat}
    (h : pyFind s pat st = (j : Int)) :
    occursAtB s pat j = true ∧ st ≤ j ∧
      (∀ k, st ≤ k → k < j → occursAtB s pat k = false) :=
  findAux_inv (s.length + 1 - st) st h

theorem rfindAux_inv {s pat : List Char} {j : Nat} :
    ∀ m, rfindAux s pat m = (j : Int) →
      occursAtB s pat j = true ∧ j ≤ m ∧
        (∀ k, j < k → k ≤ m → occursAtB s pat k = false) := by
  intro m
  induction m with
  | zero =>
    intro h
    simp only [rfindAux] at h
    by_cases hoc : occursAtB s pat 0 = true
    · rw [if_pos hoc] at h
      have hj0 : 0 = j := by exact_mod_cast h
      subst hj0
      exact ⟨hoc, Nat.le_refl 0, fun k hk1 hk2 => absurd hk1 (by omega)⟩
    · rw [if_neg hoc] at h
      exfalso
      omega
  | succ m ih =>
    intro h
    simp only [rfindAux] at h
    by_cases hoc : occursAtB s pat (m + 1) = true
    · rw [if_pos hoc] at h
      have hij : m + 1 = j := by exact_mod_cast h
      subst hij
      exact ⟨hoc, Nat.le_refl _, fun k hk1 hk2 => absurd hk1 (by omega)⟩
    · rw [if_neg hoc] at h
      obtain ⟨h1, h2, h3⟩ := ih h
      have hoc' : occursAtB s pat (m + 1) = false := by
        cases hx : occursAtB s pat (m + 1)
        · rfl
        · exact absurd hx hoc
      refine ⟨h1, by omega, fun k hk1 hk2 => ?_⟩
      by_cases hk : k = m + 1
      · subst hk
        exact hoc'
      · exact h3 k hk1 (by omega)

theorem pyRFind_inv {s pat : List Char} {j : Nat}
    (h : pyRFind s pat = (j : Int)) :
    occursAtB s pat j = true ∧ j ≤ s.length ∧
      (∀ k, j < k → k ≤ s.length → occursAtB s pat k = false) :=
  rfindAux_inv s.length h

/-- C10: when an opening fence (tagged or generic) has no closing fence
after it, `find` returns `-1`, which the slice uses directly as its end:
the code returns the remainder of the text after the opening marker with
its final character removed, then trimmed. -/
theorem C10_unclosed_fence (s : List Char) (i : Nat) :
    (pyFind s htmlFence 0 = (i : Int) →
      pyFind s codeFence (i + 7) = -1 →
      extract_html s = pyStrip ((s.drop (i + 7)).dropLast)) ∧
    (pyContains s htmlFence = false →
      pyFind s codeFence 0 = (i : Int) →
      pyFind s codeFence (i + 3) = -1 →
      extract_html s = pyStrip ((s.drop (i + 3)).dropLast)) := by
  constructor
  · intro hfind hnone
    obtain ⟨hocc, -, -⟩ := pyFind_inv hfind
    have hile : i ≤ s.length := by
      have h := occursAtB_add_le hocc (by decide)
      rw [show htmlFence.length = 7 from rfl] at h
      omega
    rw [extract_eq_branch1 hile hocc hfind, hnone, pySlice_neg_one]
  · intro hno hfind hnone
    obtain ⟨hocc, -, -⟩ := pyFind_inv hfind
    have hile : i ≤ s.length := by
      have h := occursAtB_add_le hocc (by decide)
      rw [show codeFence.length = 3 from rfl] at h
      omega
    rw [extract_eq_branch2 hno hile hocc hfind, hnone, pySlice_neg_one]

/-- Witness for C10 at a concrete truncated reply (the tagged opening marker, then `<p>x`):
the returned content is the remainder after the marker minus its final
character (`<p>`), not the full remainder (`<p>x`). -/
theorem C10_witness :
    extract_html "```html<p>x".data = pyStrip (("```html<p>x".data.drop (0 + 7)).dropLast) :=
  (C10_unclosed_fence "```html<p>x".data 0).1 (by decide) (by decide)

/-- C9: with no fences and no closing root tag, `rfind` returns `-1` and
the slice end becomes `6`: a doctype starting at index `6` or later falls
back to the whole trimmed text, while a doctype starting at `i < 6` yields
the fragment `text[i:6]`, the first `6 - i` characters of `<!DOCTYPE`. -/
theorem C9_truncated_doctype (s : List Char) (i : Nat)
    (hno : pyContains s codeFence = false)
    (hnoclose : pyContains s closeHtml = false)
    (hfind : pyFind s docType 0 = (i : Int)) :
    (6 ≤ i → extract_html s = pyStrip s) ∧
    (i < 6 → extract_html s = docType.take (6 - i)) := by
  obtain ⟨hocc, -, -⟩ := pyFind_inv hfind
  have hlen : i + 9 ≤ s.length := by
    have h := occursAtB_add_le hocc (by decide)
    rw [show docType.length = 9 from rfl] at h
    exact h
  have hrf : pyRFind s closeHtml = -1 :=
    pyRFind_neg (no_occ_of_contains_false hnoclose (by decide))
  have hbr := extract_eq_branch3 hno (by omega) hocc hfind
  rw [hrf] at hbr
  norm_num at hbr
  constructor
  · intro h6
    rw [hbr, if_neg (by omega)]
  · intro h6
    rw [hbr, if_pos (by omega)]
    rw [show (6 : Int) = ((6 : Nat) : Int) from rfl]
    rw [pySlice_eq_drop_take (by omega)]
    obtain ⟨w, hw⟩ := occursAtB_iff.mp hocc
    rw [← hw]
    rw [List.take_append_of_le_length (by simp [show docType.length = 9 from rfl]; omega)]
    have hall : ∀ k, k < 10 → pyStrip (docType.take k) = docType.take k := by decide
    exact hall (6 - i) (by omega)

/-- Witness for C9 at the concrete truncated reply
`<!DOCTYPE html><body>`: the code returns the 6-character fragment
`<!DOCT`. -/
theorem C9_witness :
    extract_html "<!DOCTYPE html><body>".data = "<!DOCT".data := by
  have h := (C9_truncated_doctype "<!DOCTYPE html><body>".data 0
      (by decide) (by decide) (by decide)).2 (by decide)
  rw [h]
  decide

/-- Counterexample to C4 as stated: the fence-free text
`</html><!DOCTYPE html>` contains a doctype and one occurrence of the
closing root tag, yet the code returns the whole trimmed text (the
`end > start` guard fails because the last `</html>` ends where the doctype
starts), not the trimmed doctype-to-last-close span (which is empty). -/
theorem C4_counterexample :
    pyContains "</html><!DOCTYPE html>".data codeFence = false ∧
    pyFind "</html><!DOCTYPE html>".data docType 0 = 7 ∧
    pyRFind "</html><!DOCTYPE html>".data closeHtml = 0 ∧
    extract_html "</html><!DOCTYPE html>".data = "</html><!DOCTYPE html>".data ∧
    extract_html "</html><!DOCTYPE html>".data ≠
      pyStrip (("</html><!DOCTYPE html>".data.drop 7).take (0 + 7 - 7)) := by
  decide

/-- C4 (amended): additionally assuming the last occurrence of `</html>`
ends strictly after the doctype starts (`i < j + 7`), the code returns the
trimmed substring from the doctype through that last occurrence,
inclusive. -/
theorem C4_doctype_span (s : List Char) (i j : Nat)
    (hno : pyContains s codeFence = false)
    (hfind : pyFind s docType 0 = (i : Int))
    (hrfind : pyRFind s closeHtml = (j : Int))
    (hij : i < j + 7) :
    extract_html s = pyStrip ((s.drop i).take (j + 7 - i)) := by
  obtain ⟨hocc, -, -⟩ := pyFind_inv hfind
  obtain ⟨hoccj, -, -⟩ := pyRFind_inv hrfind
  have hjlen : j + 7 ≤ s.length := by
    have h := occursAtB_add_le hoccj (by decide)
    rw [show closeHtml.length = 7 from rfl] at h
    exact h
  have hbr := extract_eq_branch3 hno (by omega) hocc hfind
  rw [hrfind] at hbr
  rw [hbr, if_pos (by omega)]
  rw [show ((j : Int) + 7) = ((j + 7 : Nat) : Int) from by omega]
  rw [pySlice_eq_drop_take hjlen]

/-- Witness for the amended C4 at a text with two closing root tags (one
inside quoted commentary): the returned span ends at the second (last)
one. -/
theorem C4_witness :
    extract_html "<!DOCTYPE x</html>quote</html>z".data =
      pyStrip (("<!DOCTYPE x</html>quote</html>z".data.drop 0).take (23 + 7 - 0)) :=
  C4_doctype_span "<!DOCTYPE x</html>quote</html>z".data 0 23
    (by decide) (by decide) (by decide) (by decide)

/-- Counterexample to C6 as stated: `a<!DOCTYPE x</html>b` is a fence-free
output of the extractor (it is what the code returns on the fenced input
shown), yet running the extractor on it again changes it, so the extractor
is not idempotent on every fence-free output. -/
theorem C6_counterexample :
    pyContains (extract_html "```a<!DOCTYPE x</html>b```".data) codeFence = false ∧
    extract_html (extract_html "```a<!DOCTYPE x</html>b```".data) ≠
      extract_html "```a<!DOCTYPE x</html>b```".data := by
  decide

/-- C6 (amended): a text with no fences and no doctype extracts to the
whole trimmed text and the extractor is idempotent on it; moreover a
fence-free output that is a bare HTML document — starting with the doctype
and ending with the closing root tag — is a fixed point of the
extractor. -/
theorem C6_fallback_idempotent :
    (∀ s : List Char, pyContains s codeFence = false → pyContains s docType = false →
        extract_html s = pyStrip s ∧ extract_html (extract_html s) = extract_html s) ∧
    (∀ o : List Char, pyContains o codeFence = false →
        docType.isPrefixOf o = true → closeHtml.isSuffixOf o = true →
        extract_html o = o) := by
  constructor
  · intro s h2 h3
    have he : extract_html s = pyStrip s := extract_eq_fallback h2 h3
    refine ⟨he, ?_⟩
    rw [he]
    have hsub : pyStrip s <:+: s := pyStrip_within s
    have h2' : pyContains (pyStrip s) codeFence = false := by
      cases hx : pyContains (pyStrip s) codeFence
      · rfl
      · rw [pyContains_mono hsub (by decide) hx] at h2
        simp at h2
    have h3' : pyContains (pyStrip s) docType = false := by
      cases hx : pyContains (pyStrip s) docType
      · rfl
      · rw [pyContains_mono hsub (by decide) hx] at h3
        simp at h3
    rw [extract_eq_fallback h2' h3', pyStrip_idem]
  · intro o h2 hpre hsuf
    rw [ List.isPrefixOf_iff_prefix] at hpre
    rw [List.isSuffixOf_iff_suffix] at hsuf
    obtain ⟨w, hw⟩ := hpre
    obtain ⟨t, ht⟩ := hsuf
    have holen : o.length = 9 + w.length := by
      rw [← hw]
      simp [List.length_append, show docType.length = 9 from rfl]
    have hlen7 : o.length = t.length + 7 := by
      rw [← ht]
      simp [List.length_append, show closeHtml.length = 7 from rfl]
    have hocc0 : occursAtB o docType 0 = true := by
      rw [occursAtB_iff, List.drop_zero, ← hw]
      exact List.prefix_append _ _
    have hfind0 : pyFind o docType 0 = ((0 : Nat) : Int) :=
      pyFind_eq (by omega) (Nat.le_refl 0) hocc0 (fun k hk1 hk2 => absurd hk2 (by omega))
    have hoccl : occursAtB o closeHtml (o.length - 7) = true := by
      rw [occursAtB_iff]
      rw [show o.length - 7 = t.length from by omega]
      rw [← ht, List.drop_left]
    have habove : ∀ k, o.length - 7 < k → occursAtB o closeHtml k = false := by
      intro k hk
      cases hx : occursAtB o closeHtml k
      · rfl
      · exfalso
        have h := occursAtB_add_le hx (by decide)
        rw [show closeHtml.length = 7 from rfl] at h
        omega
    have hrfind : pyRFind o closeHtml = ((o.length - 7 : Nat) : Int) :=
      pyRFind_eq (by omega) hoccl habove
    have hbr := extract_eq_branch3 h2 (by omega) hocc0 hfind0
    rw [hrfind] at hbr
    rw [hbr, if_pos (by omega)]
    rw [show ((o.length - 7 : Nat) : Int) + 7 = ((o.length : Nat) : Int) from by omega]
    rw [pySlice_eq_drop_take (Nat.le_refl o.length)]
    rw [List.drop_zero, Nat.sub_zero, List.take_length]
    apply pyStrip_eq_self
    · intro c hc
      have hh : o.head? = some '<' := by
        rw [← hw]
        rfl
      rw [hh] at hc
      injection hc with hc
      subst hc
      decide
    · intro c hc
      have hl : o.getLast? = some '>' := by
        rw [← List.head?_reverse, ← ht, List.reverse_append]
        rfl
      rw [hl] at hc
      injection hc with hc
      subst hc
      decide

/-- Witness for the amended C6: a prose fallback input is extracted to its
trim and is then a fixed point, and a bare trimmed HTML document is a fixed
point. -/
theorem C6_witness :
    (extract_html "  Sorry, here is a description instead.  ".data =
        pyStrip "  Sorry, here is a description instead.  ".data) ∧
    extract_html "<!DOCTYPE html><html></html>".data = "<!DOCTYPE html><html></html>".data :=
  ⟨(C6_fallback_idempotent.1 "  Sorry, here is a description instead.  ".data
      (by decide) (by decide)).1,
   C6_fallback_idempotent.2 "<!DOCTYPE html><html></html>".data
      (by decide) (by decide) (by decide)⟩

/-- C1: for a customization request with at least one present field, the
lines of the CUSTOMIZATIONS section are exactly one instruction per
present field, in the fixed order color scheme, font size, spacing, button
style, animations, free text, with the stated phrasings and the free text
verbatim, omitting unset fields; the section text joins them with the
bullet separator. -/
theorem C1_customization_lines (c : Customizations)
    (h : spec_customization_lines c ≠ []) :
    custom_css c = spec_customization_lines c ∧
    customization_text c = String.intercalate "\n- " (spec_customization_lines c) := by
  have heq : custom_css c = spec_customization_lines c := by
    unfold custom_css spec_customization_lines
    split_ifs <;> rfl
  refine ⟨heq, ?_⟩
  unfold customization_text
  rw [heq, if_pos h]

/-- Witness for C1 at a request with three present fields (one of them the
free text) and three unset ones. -/
theorem C1_witness :
    custom_css ⟨"dark", "", "large", "", false, "Add a sticky nav"⟩ =
      spec_customization_lines ⟨"dark", "", "large", "", false, "Add a sticky nav"⟩ ∧
    customization_text ⟨"dark", "", "large", "", false, "Add a sticky nav"⟩ =
      String.intercalate "\n- "
        (spec_customization_lines ⟨"dark", "", "large", "", false, "Add a sticky nav"⟩) :=
  C1_customization_lines ⟨"dark", "", "large", "", false, "Add a sticky nav"⟩ (by decide)

/-- C2: when every optional field is empty and animations is off, the
customization section is exactly the literal `Follow original design`. -/
theorem C2_follow_original (c : Customizations)
    (h1 : c.color_scheme = "") (h2 : c.font_size = "") (h3 : c.spacing = "")
    (h4 : c.button_style = "") (h5 : c.animations = false)
    (h6 : c.custom_instructions = "") :
    customization_text c = "Follow original design" := by
  unfold customization_text custom_css
  rw [h1, h2, h3, h4, h5, h6]
  decide

/-- Witness for C2 at the all-empty customization request. -/
theorem C2_witness :
    customization_text ⟨"", "", "", "", false, ""⟩ = "Follow original design" :=
  C2_follow_original ⟨"", "", "", "", false, ""⟩ rfl rfl rfl rfl rfl rfl

/-- Counterexample to C7 as stated: on an analysis failure with message
`quota exceeded` the synthesis stage is indeed never invoked and nothing
is produced, but the surfaced error is the prefixed string
`❌ Analysis Error: quota exceeded`, not exactly `quota exceeded`. -/
theorem C7_counterexample :
    (run_generate ⟨"", "", "", "", false, ""⟩
        (fun _ => ServiceOutcome.failure "quota exceeded")).synthesis_invoked = false ∧
    (run_generate ⟨"", "", "", "", false, ""⟩
        (fun _ => ServiceOutcome.failure "quota exceeded")).generated_html = none ∧
    (run_generate ⟨"", "", "", "", false, ""⟩
        (fun _ => ServiceOutcome.failure "quota exceeded")).errors =
      ["❌ Analysis Error: quota exceeded"] ∧
    (run_generate ⟨"", "", "", "", false, ""⟩
        (fun _ => ServiceOutcome.failure "quota exceeded")).errors ≠ ["quota exceeded"] := by
  decide

/-- C7 (amended): whenever analysis fails, synthesis is never invoked, no
generation result is produced or stored, and the surfaced error is the
fixed prefix `❌ Analysis Error: ` followed by the own
message of the analysis failure, unmodified. -/
theorem C7_short_circuit (c : Customizations) (svc : String → ServiceOutcome) (msg : String)
    (h : svc (analysis_prompt c.custom_instructions) = .failure msg) :
    run_generate c svc =
      { analysis_stored := none, generated_html := none,
        errors := ["❌ Analysis Error: " ++ msg], successes := [],
        synthesis_invoked := false } := by
  unfold run_generate analyze_design
  rw [h]
  rfl

/-- Witness for the amended C7 at a concrete failing service. -/
theorem C7_witness :
    run_generate ⟨"", "", "", "", true, "x"⟩ (fun _ => ServiceOutcome.failure "boom") =
      { analysis_stored := none, generated_html := none,
        errors := ["❌ Analysis Error: boom"], successes := [],
        synthesis_invoked := false } :=
  C7_short_circuit ⟨"", "", "", "", true, "x"⟩ (fun _ => ServiceOutcome.failure "boom") "boom" rfl

/-- C8: each wrapper converts a raised service exception into a
success-false result carrying the own message of the exception, unmodified, from
a single service call, and every result carries exactly one of the success
payload (`raw_analysis` or `html`) or the error message, never both. -/
theorem C8_result_shape (ci : String) (a : PyDict) (c : Customizations)
    (svc : String → ServiceOutcome) :
    ((analyze_design ci svc).raw_analysis.isSome = true ∧
        (analyze_design ci svc).error = none ∧ (analyze_design ci svc).success = true ∨
      (analyze_design ci svc).raw_analysis = none ∧
        (analyze_design ci svc).error.isSome = true ∧
        (analyze_design ci svc).success = false) ∧
    ((generate_html_css a c svc).html.isSome = true ∧
        (generate_html_css a c svc).error = none ∧
        (generate_html_css a c svc).success = true ∨
      (generate_html_css a c svc).html = none ∧
        (generate_html_css a c svc).error.isSome = true ∧
        (generate_html_css a c svc).success = false) ∧
    (∀ m, svc (analysis_prompt ci) = .failure m →
      analyze_design ci svc =
        { success := false, raw_analysis := none, html := none, error := some m }) ∧
    (∀ m, svc (code_prompt a c) = .failure m →
      generate_html_css a c svc =
        { success := false, raw_analysis := none, html := none, error := some m }) := by
  refine ⟨?_, ?_, ?_, ?_⟩
  · unfold analyze_design
    cases svc (analysis_prompt ci) with
    | success t => exact Or.inl ⟨rfl, rfl, rfl⟩
    | failure m => exact Or.inr ⟨rfl, rfl, rfl⟩
  · unfold generate_html_css
    cases svc (code_prompt a c) with
    | success t => exact Or.inl ⟨rfl, rfl, rfl⟩
    | failure m => exact Or.inr ⟨rfl, rfl, rfl⟩
  · intro m h
    unfold analyze_design
    rw [h]
  · intro m h
    unfold generate_html_css
    rw [h]

/-- Witness for C8 at a concrete failing service call. -/
theorem C8_witness :
    analyze_design "" (fun _ => ServiceOutcome.failure "rate limited") =
      { success := false, raw_analysis := none, html := none, error := some "rate limited" } :=
  (C8_result_shape "" ⟨true, some "A", none, none⟩ ⟨"", "", "", "", false, ""⟩
      (fun _ => ServiceOutcome.failure "rate limited")).2.2.1 "rate limited" rfl

example : extract_html "pre ```html\n<p>x</p>\n``` post".data = "<p>x</p>".data := by decide

example : extract_html "a ```css\nbody\n``` b".data = "css\nbody".data := by decide

example : extract_html "x <!DOCTYPE html><html></html> y".data = "<!DOCTYPE html><html></html>".data := by
  decide

example : extract_html "  plain prose  ".data = "plain prose".data := by decide

example : extract_html "</html><!DOCTYPE html>".data = "</html><!DOCTYPE html>".data := by decide

example : extract_html "<!DOCTYPE html><body>".data = "<!DOCT".data := by decide

example : extract_html "```html<p>x".data = "<p>".data := by decide

end CanvaToHTML
